import Mathlib

/-!
Shallow embedding of the `@nc/net-addr` TypeScript library (IPv4/IPv6
addresses, socket addresses, ports, relaxed and strict parsers, and
address iterators), together with theorems settling the specification
claims about it.

Conventions of the embedding:
* JavaScript strings are modelled as `List Char`; every string handled by
  the library is ASCII, where UTF-16 code-unit indexing and code-point
  indexing agree.  `s[i]` (which yields `undefined` out of bounds) is
  modelled as `(s.drop i).head? : Option Char`.
* JavaScript numbers holding unsigned integers are modelled as `Nat`; in
  the places where the code can produce a negative intermediate value
  (e.g. `toUint32() - 1`) the embedding uses `Int`.  `NaN` (from
  `Number.parseInt` on a digit-free string) is modelled as `none` of an
  `Option`.
* The elements of a `Uint8Array` (resp. `Uint16Array`) are unsigned 8-bit
  (resp. 16-bit) integers by construction; every constructor of the
  library validates its inputs before storing them, so address octets and
  segments are modelled as plain `Nat` fields with a separate `Valid`
  predicate stating the ranges guaranteed by construction.
* A thrown JavaScript `Error` is modelled with `Except String`: `.error`
  is a throw, `.ok` a normal return.
-/

/-! ## utils.ts -/

/-- `isAsciiDigit` from `utils.ts`: the code point lies in U+0030..U+0039. -/
def isAsciiDigit (c : Char) : Bool :=
  0x30 ≤ c.toNat && c.toNat ≤ 0x39

/-- The scanning loop of `takeAsciiDigits`: starting from the given
suffix of the string, take consecutive ASCII digits while fewer than
`atMost` have been taken. -/
def takeDigitsAux : List Char → Nat → List Char
  | _, 0 => []
  | [], _ + 1 => []
  | c :: rest, n + 1 => if isAsciiDigit c then c :: takeDigitsAux rest n else []

/-- `takeAsciiDigits(s, at, atLeast, atMost)` from `utils.ts`: scan up to
`atMost` ASCII digits starting at index `at`; if fewer than `atLeast`
were scanned, the taken string is empty; in both cases the returned index
is the position where scanning stopped. -/
def takeAsciiDigits (s : List Char) (atIdx atLeast atMost : Nat) : List Char × Nat :=
  let taken := takeDigitsAux (s.drop atIdx) atMost
  if taken.length < atLeast then ([], atIdx + taken.length)
  else (taken, atIdx + taken.length)

/-- Decimal value of a list of ASCII digit characters. -/
def digitsToNat (g : List Char) : Nat :=
  g.foldl (fun acc c => acc * 10 + (c.toNat - 48)) 0

/-- `Number.parseInt(g, 10)` restricted to the strings produced by
`takeAsciiDigits` (either empty or consisting solely of ASCII digits):
the empty string parses to `NaN` (modelled as `none`), a digit string to
its decimal value. -/
def parseIntDigits (g : List Char) : Option Nat :=
  if g.isEmpty then none else some (digitsToNat g)

/-- `arrayStartsWith` from `utils.ts`: `b` is no longer than `a` and the
first `b.length` elements of `a` equal those of `b`. -/
def arrayStartsWith : List Nat → List Nat → Bool
  | _, [] => true
  | [], _ :: _ => false
  | x :: xs, y :: ys => x == y && arrayStartsWith xs ys

/-- `s[i]` on a JavaScript string: the character at index `i`, or
`undefined` (`none`) out of bounds. -/
def charAt (s : List Char) (i : Nat) : Option Char :=
  (s.drop i).head?

/-! ## Decimal rendering (JS number-to-string for unsigned integers,
as produced by template literals like `` `${this.a}` ``). -/

/-- The ASCII digit character for a value in 0..9. -/
def digitChar (n : Nat) : Char :=
  Char.ofNat (48 + n)

/-- Fuel-driven digit accumulator for `natToDecimal` (structural so that
the kernel can evaluate it). -/
def natToDecimalAux : Nat → Nat → List Char → List Char
  | 0, _, acc => acc
  | fuel + 1, n, acc =>
    if n < 10 then digitChar n :: acc
    else natToDecimalAux fuel (n / 10) (digitChar (n % 10) :: acc)

/-- Decimal rendering of a natural number, with no leading zeros. -/
def natToDecimal (n : Nat) : List Char :=
  natToDecimalAux (n + 1) n []

/-! ## Ipv4Addr (src/v4/ipv4.ts) -/

/-- An IPv4 address: the 4 octets `a`, `b`, `c`, `d` of its `Uint8Array`
in network byte order.  Every public constructor of the class validates
that each octet is an unsigned 8-bit integer (see `Ipv4Addr.Valid`). -/
structure Ipv4Addr where
  a : Nat
  b : Nat
  c : Nat
  d : Nat
deriving DecidableEq, Repr

/-- The invariant every constructed `Ipv4Addr` satisfies: its octets live
in a `Uint8Array`, hence are unsigned 8-bit integers. -/
def Ipv4Addr.Valid (v : Ipv4Addr) : Prop :=
  v.a ≤ 255 ∧ v.b ≤ 255 ∧ v.c ≤ 255 ∧ v.d ≤ 255

instance (v : Ipv4Addr) : Decidable v.Valid := by
  unfold Ipv4Addr.Valid; infer_instance

/-- `Ipv4Addr.BROADCAST`, the address `255.255.255.255`. -/
def Ipv4Addr.BROADCAST : Ipv4Addr := ⟨255, 255, 255, 255⟩

/-- `Ipv4Addr.LOCALHOST`, the address `127.0.0.1`. -/
def Ipv4Addr.LOCALHOST : Ipv4Addr := ⟨127, 0, 0, 1⟩

/-- `Ipv4Addr.UNSPECIFIED`, the address `0.0.0.0`. -/
def Ipv4Addr.UNSPECIFIED : Ipv4Addr := ⟨0, 0, 0, 0⟩

/-- `Ipv4Addr.tryNew(a, b, c, d)`: `null` unless every argument is an
unsigned 8-bit integer. -/
def Ipv4Addr.tryNew (a b c d : Nat) : Option Ipv4Addr :=
  if a ≤ 255 ∧ b ≤ 255 ∧ c ≤ 255 ∧ d ≤ 255 then some ⟨a, b, c, d⟩ else none

/-- `Ipv4Addr.tryFromUint32(uint32)`: `null` unless the argument is an
unsigned 32-bit integer, otherwise split it into 4 bytes, most
significant first (`(uint32 >>> k) & 255`). -/
def Ipv4Addr.tryFromUint32 (uint32 : Int) : Option Ipv4Addr :=
  if 0 ≤ uint32 ∧ uint32 ≤ 4294967295 then
    some ⟨uint32.toNat >>> 24 &&& 255, uint32.toNat >>> 16 &&& 255,
          uint32.toNat >>> 8 &&& 255, uint32.toNat &&& 255⟩
  else none

/-- `uint8ArrayToUint32` from `src/v4/ipv4.ts`:
`(a << 24 | b << 16 | c << 8 | d) >>> 0`.  For octet inputs the int32
round-trip performed by JavaScript's `<<`/`|`/`>>> 0` is the identity on
the underlying 32 bits, so the value is the plain bitwise-or of the
shifted bytes. -/
def uint8ArrayToUint32 (a b c d : Nat) : Nat :=
  a <<< 24 ||| b <<< 16 ||| c <<< 8 ||| d

/-- `Ipv4Addr.toUint32()`. -/
def Ipv4Addr.toUint32 (v : Ipv4Addr) : Nat :=
  uint8ArrayToUint32 v.a v.b v.c v.d

/-- `Ipv4Addr.toString()`: dot-decimal notation `` `${a}.${b}.${c}.${d}` ``. -/
def Ipv4Addr.toString (v : Ipv4Addr) : List Char :=
  natToDecimal v.a ++ '.' :: (natToDecimal v.b ++ '.' :: (natToDecimal v.c ++ '.' :: natToDecimal v.d))

/-- `Ipv4Addr.previous()`: `tryFromUint32(this.toUint32() - 1)` (the
subtraction is exact JavaScript number arithmetic, hence `Int`). -/
def Ipv4Addr.previous (v : Ipv4Addr) : Option Ipv4Addr :=
  Ipv4Addr.tryFromUint32 ((v.toUint32 : Int) - 1)

/-- `Ipv4Addr.next()`: `tryFromUint32(this.toUint32() + 1)`. -/
def Ipv4Addr.next (v : Ipv4Addr) : Option Ipv4Addr :=
  Ipv4Addr.tryFromUint32 ((v.toUint32 : Int) + 1)

/-- `Ipv4Addr.equals(other)`: octet-wise `===`. -/
def Ipv4Addr.equals (v other : Ipv4Addr) : Bool :=
  v.a == other.a && v.b == other.b && v.c == other.c && v.d == other.d

/-- The octets of the address as an array, `Ipv4Addr.octets()`. -/
def Ipv4Addr.octets (v : Ipv4Addr) : List Nat :=
  [v.a, v.b, v.c, v.d]

/-- `isBenchmarking()`: `198.18.0.0/15`. -/
def Ipv4Addr.isBenchmarking (v : Ipv4Addr) : Bool :=
  v.a == 198 && (v.b &&& 0xfe) == 18

/-- `isBroadcast()`: equals `255.255.255.255`. -/
def Ipv4Addr.isBroadcast (v : Ipv4Addr) : Bool :=
  v.equals Ipv4Addr.BROADCAST

/-- `isDocumentation()`: `192.0.2.0/24`, `198.51.100.0/24`, `203.0.113.0/24`. -/
def Ipv4Addr.isDocumentation (v : Ipv4Addr) : Bool :=
  arrayStartsWith v.octets [192, 0, 2] ||
  arrayStartsWith v.octets [198, 51, 100] ||
  arrayStartsWith v.octets [203, 0, 113]

/-- `isLinkLocal()`: `169.254.0.0/16`. -/
def Ipv4Addr.isLinkLocal (v : Ipv4Addr) : Bool :=
  arrayStartsWith v.octets [169, 254]

/-- `isLoopback()`: `127.0.0.0/8`. -/
def Ipv4Addr.isLoopback (v : Ipv4Addr) : Bool :=
  v.a == 127

/-- `isMulticast()`: `224.0.0.0/4`. -/
def Ipv4Addr.isMulticast (v : Ipv4Addr) : Bool :=
  224 ≤ v.a && v.a ≤ 239

/-- `isPrivate()`: `10.0.0.0/8`, `172.16.0.0/12`, `192.168.0.0/16`. -/
def Ipv4Addr.isPrivate (v : Ipv4Addr) : Bool :=
  v.a == 10 || (v.a == 172 && (16 ≤ v.b && v.b ≤ 31)) || (v.a == 192 && v.b == 168)

/-- `isReserved()`: `240.0.0.0/4` minus the broadcast address. -/
def Ipv4Addr.isReserved (v : Ipv4Addr) : Bool :=
  (v.a &&& 240) == 240 && !v.isBroadcast

/-- `isShared()`: `100.64.0.0/10`. -/
def Ipv4Addr.isShared (v : Ipv4Addr) : Bool :=
  v.a == 100 && (v.b &&& 0b11000000) == 0b01000000

/-- `isUnspecified()`: equals `0.0.0.0`. -/
def Ipv4Addr.isUnspecified (v : Ipv4Addr) : Bool :=
  v.equals Ipv4Addr.UNSPECIFIED

/-- `isGlobal()` from `src/v4/ipv4.ts` (same body in `src/ipv4.ts`). -/
def Ipv4Addr.isGlobal (v : Ipv4Addr) : Bool :=
  !(v.a == 0 ||
    v.isPrivate ||
    v.isShared ||
    v.isLoopback ||
    v.isLinkLocal ||
    (v.a == 192 && v.b == 0 && v.c == 0 && v.d != 9 && v.d != 10) ||
    v.isDocumentation ||
    v.isBenchmarking ||
    v.isReserved ||
    v.isBroadcast)

/-! ## The relaxed parser (src/parser.ts / src/utils/parser.ts) -/

/-- One iteration of the octet loop of `parseIpv4Addr`: take 1–3 digits at
`idx`, `Number.parseInt` them and range-check the value.
* An empty take parses to `NaN`; `NaN < 0 || NaN > 255` is `false`, so the
  loop does **not** fail there: the `Uint8Array` stores `ToUint8(NaN) = 0`
  and the index stays put (`newIdx = idx` since no digit was scanned).
* A value above 255 fails, reporting the index at the start of the group.
`none` here means that failure (the caller returns `[null, idx]` with the
incoming `idx`); `some (oct, newIdx)` is the stored octet and new index. -/
def ipv4OctetStep (s : List Char) (idx : Nat) : Option (Nat × Nat) :=
  let r := takeAsciiDigits s idx 1 3
  match parseIntDigits r.1 with
  | none => some (0, r.2)
  | some n => if n > 255 then none else some (n, r.2)

/-- `parseIpv4Addr(s)` from `src/parser.ts`: the relaxed dotted-decimal
parser.  The `while (seenDots <= 3)` loop is unrolled into its four
iterations; the first three are followed by the literal-dot check.  The
result is the pair `[Ipv4Addr | null, index where the parser left off]`. -/
def parseIpv4Addr (s : List Char) : Option Ipv4Addr × Nat :=
  match ipv4OctetStep s 0 with
  | none => (none, 0)
  | some (n0, i0) =>
    if charAt s i0 = some '.' then
      match ipv4OctetStep s (i0 + 1) with
      | none => (none, i0 + 1)
      | some (n1, i1) =>
        if charAt s i1 = some '.' then
          match ipv4OctetStep s (i1 + 1) with
          | none => (none, i1 + 1)
          | some (n2, i2) =>
            if charAt s i2 = some '.' then
              match ipv4OctetStep s (i2 + 1) with
              | none => (none, i2 + 1)
              | some (n3, i3) => (some ⟨n0, n1, n2, n3⟩, i3)
            else (none, i2)
        else (none, i1)
    else (none, i0)

/-- `Ipv4Addr.parse(s)` from `src/v4/ipv4.ts`, the strict entry point:
run the relaxed parser, and reject (only) when the character at the
reported stop index is a dot. -/
def Ipv4Addr.parse (s : List Char) : Option Ipv4Addr :=
  let r := parseIpv4Addr s
  if charAt s r.2 = some '.' then none else r.1

/-! ## Port and socket addresses (socket.ts) -/

/-- A `Port`: a newtype over a port number.  Every checked constructor
guarantees the value is an unsigned 16-bit integer. -/
structure Port where
  value : Nat
deriving DecidableEq, Repr

/-- `Port.tryNew(value)`: `null` unless the value is an integer in
0..65535 (`isValidUint16`). -/
def Port.tryNew (value : Int) : Option Port :=
  if 0 ≤ value ∧ value ≤ 65535 then some ⟨value.toNat⟩ else none

/-- The JavaScript `StrWhiteSpace` characters skipped by
`Number.parseInt` before reading the number: WhiteSpace (TAB, VT, FF, SP,
NBSP, BOM and the Unicode space separators) and LineTerminator (LF, CR,
LS, PS). -/
def isJsWhitespace (c : Char) : Bool :=
  c.toNat == 0x9 || c.toNat == 0xa || c.toNat == 0xb || c.toNat == 0xc ||
  c.toNat == 0xd || c.toNat == 0x20 || c.toNat == 0xa0 || c.toNat == 0x1680 ||
  (0x2000 ≤ c.toNat && c.toNat ≤ 0x200a) || c.toNat == 0x2028 ||
  c.toNat == 0x2029 || c.toNat == 0x202f || c.toNat == 0x205f ||
  c.toNat == 0x3000 || c.toNat == 0xfeff

/-- The digit-scanning tail of `Number.parseInt(s, 10)`: the longest
leading run of ASCII decimal digits, `NaN` (`none`) if it is empty.
(Values beyond 2^53 lose precision in JavaScript; the library only ever
compares the result against bounds far below that, where the exact value
and the float agree in being in or out of range.) -/
def jsDigitsValue (cs : List Char) : Option Nat :=
  let ds := cs.takeWhile isAsciiDigit
  if ds.isEmpty then none else some (digitsToNat ds)

/-- `Number.parseInt(s, 10)`: skip leading whitespace, read an optional
sign, then the longest run of decimal digits; `NaN` (`none`) if there is
no digit. -/
def jsParseInt10 (s : List Char) : Option Int :=
  let t := s.dropWhile isJsWhitespace
  if t.head? = some '-' then (jsDigitsValue t.tail).map (fun n => -(n : Int))
  else if t.head? = some '+' then (jsDigitsValue t.tail).map (fun n => (n : Int))
  else (jsDigitsValue t).map (fun n => (n : Int))

/-- `Port.parse(s)`: `Port.tryNew(Number.parseInt(s, 10))`.
(`Port.tryNew(NaN)` is `null` since `isValidUint16(NaN)` is `false`.) -/
def Port.parse (s : List Char) : Option Port :=
  match jsParseInt10 s with
  | none => none
  | some v => Port.tryNew v

/-- A `SocketAddrV4`: an IPv4 address paired with a port. -/
structure SocketAddrV4 where
  addr : Ipv4Addr
  port : Port
deriving DecidableEq, Repr

/-- `SocketAddrV4.tryNew(addr, portNum)`: `null` when the port is not a
valid unsigned 16-bit integer. -/
def SocketAddrV4.tryNew (addr : Ipv4Addr) (portNum : Int) : Option SocketAddrV4 :=
  (Port.tryNew portNum).map (fun p => ⟨addr, p⟩)

/-- `parseSocketAddrV4(s)` from `src/parser.ts`: relaxed
`<ipv4>:<port>` parser.  Parse the address; require a literal `:`; take
1–5 digits for the port; reject `NaN` or a value above 65535.  (The
`SocketAddrV4.tryNew` variant of this function behaves identically: a
`NaN` or out-of-range port yields `null`.) -/
def parseSocketAddrV4 (s : List Char) : Option SocketAddrV4 × Nat :=
  match parseIpv4Addr s with
  | (none, afterAddr) => (none, afterAddr)
  | (some addr, afterAddr) =>
    if charAt s afterAddr = some ':' then
      let r := takeAsciiDigits s (afterAddr + 1) 1 5
      match parseIntDigits r.1 with
      | none => (none, r.2)
      | some portNum =>
        if portNum > 65535 then (none, r.2)
        else (some ⟨addr, ⟨portNum⟩⟩, r.2)
    else (none, afterAddr)

/-- `SocketAddrV4.parse(s)`: the first component of the relaxed parse
(the stop index is discarded). -/
def SocketAddrV4.parse (s : List Char) : Option SocketAddrV4 :=
  (parseSocketAddrV4 s).1

/-! ## Ipv6Addr (src/ipv6.ts) -/

/-- An IPv6 address: the 8 segments (hextets) of its `Uint16Array` in
network byte order.  Every public constructor validates that each
segment is an unsigned 16-bit integer (see `Ipv6Addr.Valid`). -/
structure Ipv6Addr where
  a : Nat
  b : Nat
  c : Nat
  d : Nat
  e : Nat
  f : Nat
  g : Nat
  h : Nat
deriving DecidableEq, Repr

/-- The invariant every constructed `Ipv6Addr` satisfies: its segments
live in a `Uint16Array`, hence are unsigned 16-bit integers. -/
def Ipv6Addr.Valid (v : Ipv6Addr) : Prop :=
  v.a ≤ 65535 ∧ v.b ≤ 65535 ∧ v.c ≤ 65535 ∧ v.d ≤ 65535 ∧
  v.e ≤ 65535 ∧ v.f ≤ 65535 ∧ v.g ≤ 65535 ∧ v.h ≤ 65535

instance (v : Ipv6Addr) : Decidable v.Valid := by
  unfold Ipv6Addr.Valid; infer_instance

/-- `Ipv6Addr.LOCALHOST`, the address `::1`. -/
def Ipv6Addr.LOCALHOST : Ipv6Addr := ⟨0, 0, 0, 0, 0, 0, 0, 1⟩

/-- `Ipv6Addr.UNSPECIFIED`, the address `::`. -/
def Ipv6Addr.UNSPECIFIED : Ipv6Addr := ⟨0, 0, 0, 0, 0, 0, 0, 0⟩

/-- `Ipv6Addr.segments()`: the 8 segments as an array. -/
def Ipv6Addr.segments (v : Ipv6Addr) : List Nat :=
  [v.a, v.b, v.c, v.d, v.e, v.f, v.g, v.h]

/-- `Ipv6Addr.tryNew(a..h)`: `null` unless every argument is an unsigned
16-bit integer. -/
def Ipv6Addr.tryNew (a b c d e f g h : Nat) : Option Ipv6Addr :=
  if a ≤ 65535 ∧ b ≤ 65535 ∧ c ≤ 65535 ∧ d ≤ 65535 ∧
     e ≤ 65535 ∧ f ≤ 65535 ∧ g ≤ 65535 ∧ h ≤ 65535 then
    some ⟨a, b, c, d, e, f, g, h⟩
  else none

/-- `Ipv6Addr.tryFromUint128(u128)`: `null` unless the argument is an
unsigned 128-bit integer, otherwise split it into 8 big-endian segments
(`Number((u128 >> k) & 65535n)`). -/
def Ipv6Addr.tryFromUint128 (u128 : Int) : Option Ipv6Addr :=
  if 0 ≤ u128 ∧ u128 ≤ 2 ^ 128 - 1 then
    some ⟨u128.toNat >>> 112 &&& 65535, u128.toNat >>> 96 &&& 65535,
          u128.toNat >>> 80 &&& 65535, u128.toNat >>> 64 &&& 65535,
          u128.toNat >>> 48 &&& 65535, u128.toNat >>> 32 &&& 65535,
          u128.toNat >>> 16 &&& 65535, u128.toNat &&& 65535⟩
  else none

/-- `uint16ArrayToUint128(array)`: fold `result = (result << 16n) | seg`
over the segments. -/
def uint16ArrayToUint128 (array : List Nat) : Nat :=
  array.foldl (fun result x => result <<< 16 ||| x) 0

/-- `Ipv6Addr.toUint128()`. -/
def Ipv6Addr.toUint128 (v : Ipv6Addr) : Nat :=
  uint16ArrayToUint128 v.segments

/-- `Ipv6Addr.previous()`: `tryFromUint128(this.toUint128() - 1n)`. -/
def Ipv6Addr.previous (v : Ipv6Addr) : Option Ipv6Addr :=
  Ipv6Addr.tryFromUint128 ((v.toUint128 : Int) - 1)

/-- `Ipv6Addr.next()`: `tryFromUint128(this.toUint128() + 1n)`. -/
def Ipv6Addr.next (v : Ipv6Addr) : Option Ipv6Addr :=
  Ipv6Addr.tryFromUint128 ((v.toUint128 : Int) + 1)

/-- `Ipv6Addr.octets()`: the 16-byte view, each segment split
high-byte-first (`(hextet >> 8) & 0xff` then `hextet & 0xff`). -/
def Ipv6Addr.octets (v : Ipv6Addr) : List Nat :=
  [v.a >>> 8 &&& 0xff, v.a &&& 0xff, v.b >>> 8 &&& 0xff, v.b &&& 0xff,
   v.c >>> 8 &&& 0xff, v.c &&& 0xff, v.d >>> 8 &&& 0xff, v.d &&& 0xff,
   v.e >>> 8 &&& 0xff, v.e &&& 0xff, v.f >>> 8 &&& 0xff, v.f &&& 0xff,
   v.g >>> 8 &&& 0xff, v.g &&& 0xff, v.h >>> 8 &&& 0xff, v.h &&& 0xff]

/-- `Ipv6Addr.equals(other)`: segment-wise `===`. -/
def Ipv6Addr.equals (v other : Ipv6Addr) : Bool :=
  v.a == other.a && v.b == other.b && v.c == other.c && v.d == other.d &&
  v.e == other.e && v.f == other.f && v.g == other.g && v.h == other.h

/-- `isBenchmarking()`: segments start `0x2001, 0x2, 0`. -/
def Ipv6Addr.isBenchmarking (v : Ipv6Addr) : Bool :=
  v.a == 0x2001 && v.b == 0x2 && v.c == 0

/-- `isDocumentation()`: `2001:db8::/32`. -/
def Ipv6Addr.isDocumentation (v : Ipv6Addr) : Bool :=
  v.a == 0x2001 && v.b == 0xdb8

/-- `isDiscardOnly()`: `100::/64`. -/
def Ipv6Addr.isDiscardOnly (v : Ipv6Addr) : Bool :=
  arrayStartsWith v.segments [0x100, 0, 0, 0]

/-- `isIpv4Mapped()`: `::ffff:0:0/96`. -/
def Ipv6Addr.isIpv4Mapped (v : Ipv6Addr) : Bool :=
  arrayStartsWith v.segments [0, 0, 0, 0, 0, 0xffff]

/-- `isIpv4Translated()`: `64:ff9b:1::/48`. -/
def Ipv6Addr.isIpv4Translated (v : Ipv6Addr) : Bool :=
  arrayStartsWith v.segments [0x64, 0xff9b, 1]

/-- `isLoopback()`: equals `::1`. -/
def Ipv6Addr.isLoopback (v : Ipv6Addr) : Bool :=
  v.equals Ipv6Addr.LOCALHOST

/-- `isMulticast()`: `ff00::/8`. -/
def Ipv6Addr.isMulticast (v : Ipv6Addr) : Bool :=
  (v.a &&& 0xff00) == 0xff00

/-- `isUnicastLinkLocal()`: `fe80::/10`. -/
def Ipv6Addr.isUnicastLinkLocal (v : Ipv6Addr) : Bool :=
  (v.a &&& 0xffc0) == 0xfe80

/-- `isUniqueLocal()`: `fc00::/7`. -/
def Ipv6Addr.isUniqueLocal (v : Ipv6Addr) : Bool :=
  (v.a &&& 0xfe00) == 0xfc00

/-- `isUnspecified()`: equals `::`. -/
def Ipv6Addr.isUnspecified (v : Ipv6Addr) : Bool :=
  v.equals Ipv6Addr.UNSPECIFIED

/-- `isGlobal()` from `src/ipv6.ts` (same logic in both snapshots):
the complement of the IANA special-purpose ranges, with the nested
carve-outs inside `2001::/23` re-admitted as global. -/
def Ipv6Addr.isGlobal (v : Ipv6Addr) : Bool :=
  !(v.isUnspecified ||
    v.isLoopback ||
    v.isIpv4Mapped ||
    v.isIpv4Translated ||
    v.isDiscardOnly ||
    ((v.a == 0x2001 && decide (v.b < 0x200)) && !(
      v.toUint128 == 0x20010001000000000000000000000001 ||
      v.toUint128 == 0x20010001000000000000000000000002 ||
      arrayStartsWith v.segments [0x2001, 0x3] ||
      arrayStartsWith v.segments [0x2001, 4, 0x112] ||
      (v.a == 0x2001 && (decide (0x10 ≤ v.b) && decide (v.b ≤ 0x3f))))) ||
    v.a == 0x2002 ||
    v.isDocumentation ||
    v.isUniqueLocal ||
    v.isUnicastLinkLocal)

/-- `uint16ToUint8Array(value)` from `src/ipv6.ts`: note the returned
array is `[lowByte, highByte]`. -/
def uint16ToUint8Array (value : Nat) : List Nat :=
  [value &&& 0xff, value >>> 8 &&& 0xff]

/-- `Ipv6Addr.toIpv4()`: when segments 0–4 are zero and segment 5 is 0 or
`0xffff`, build an IPv4 address from the destructured
`uint16ToUint8Array` pairs of segments 6 and 7 (`const [a, b] = ...`
takes the low byte as `a` and the high byte as `b`). -/
def Ipv6Addr.toIpv4 (v : Ipv6Addr) : Option Ipv4Addr :=
  if arrayStartsWith v.segments [0, 0, 0, 0, 0] &&
     (v.f == 0 || v.f == 0xffff) then
    Ipv4Addr.tryNew ((uint16ToUint8Array v.g).getD 0 0) ((uint16ToUint8Array v.g).getD 1 0)
      ((uint16ToUint8Array v.h).getD 0 0) ((uint16ToUint8Array v.h).getD 1 0)
  else none

/-- `Ipv6Addr.toIpv4Mapped()`: require the 16-byte octet view to start
with `0,0,0,0,0,0,0,0,0,0,0xff,0xff` and build the IPv4 address from
octets 12..15. -/
def Ipv6Addr.toIpv4Mapped (v : Ipv6Addr) : Option Ipv4Addr :=
  if arrayStartsWith v.octets [0, 0, 0, 0, 0, 0, 0, 0, 0, 0, 0xff, 0xff] then
    Ipv4Addr.tryNew (v.octets.getD 12 0) (v.octets.getD 13 0)
      (v.octets.getD 14 0) (v.octets.getD 15 0)
  else none

/-- A `SocketAddrV6`: an IPv6 address, a port, flow info and scope ID. -/
structure SocketAddrV6 where
  addr : Ipv6Addr
  port : Port
  flowInfo : Nat
  scopeId : Nat
deriving DecidableEq, Repr

/-- `SocketAddrV6.parse(s)`: unconditionally
`throw new Error('Not implemented yet')`.  The throw is modelled as
`Except.error` carrying the error message; a normal return (`null` for
malformed input, or a socket address) would be `Except.ok`. -/
def SocketAddrV6.parse (_s : List Char) : Except String (Option SocketAddrV6) :=
  .error ("Not implemented yet")

/-! ## The 0.2-era snapshot of Ipv4Addr.next (src/ipv4.ts) -/

/-- `Ipv4Addr.fromUint32(n)` from the `src/ipv4.ts` snapshot: clamp into
the unsigned 32-bit range, then split into bytes. -/
def Ipv4Addr.fromUint32Legacy (n : Int) : Ipv4Addr :=
  let u32 := (max 0 (min 4294967295 n)).toNat
  ⟨u32 >>> 24 &&& 255, u32 >>> 16 &&& 255, u32 >>> 8 &&& 255, u32 &&& 255⟩

/-- `Ipv4Addr.next()` from the `src/ipv4.ts` snapshot: increments the
32-bit value but tests it against `65535` instead of the unsigned 32-bit
maximum before reconstructing. -/
def Ipv4Addr.nextLegacy (v : Ipv4Addr) : Option Ipv4Addr :=
  let n : Int := (v.toUint32 : Int) + 1
  if n > 65535 then none else some (Ipv4Addr.fromUint32Legacy n)

/-- `Ipv4Addr.previous()` from the `src/ipv4.ts` snapshot. -/
def Ipv4Addr.previousLegacy (v : Ipv4Addr) : Option Ipv4Addr :=
  let n : Int := (v.toUint32 : Int) - 1
  if n < 0 then none else some (Ipv4Addr.fromUint32Legacy n)

/-! ## Address iterators (src/v4/iter.ts, src/v6/iter.ts) -/

/-- The state of an `Ipv4AddrIterator`: the current and end positions as
unsigned 32-bit integers. -/
structure Ipv4AddrIterator where
  currU32 : Nat
  endU32 : Nat
deriving DecidableEq, Repr

/-- The constructor `new Ipv4AddrIterator(start, end)`. -/
def Ipv4AddrIterator.ofAddrs (start stop : Ipv4Addr) : Ipv4AddrIterator :=
  ⟨start.toUint32, stop.toUint32⟩

/-- One `next()` call on an `Ipv4AddrIterator`: if `currU32 < endU32`,
yield the address at `currU32` (with `done: false`) and post-increment;
otherwise report `{ value: null, done: true }` and leave the state
unchanged.  The yielded `value` is returned together with the successor
state; `none` models the `done` result. -/
def Ipv4AddrIterator.next (it : Ipv4AddrIterator) : Option Ipv4Addr × Ipv4AddrIterator :=
  if it.currU32 < it.endU32 then
    (Ipv4Addr.tryFromUint32 (it.currU32 : Int), ⟨it.currU32 + 1, it.endU32⟩)
  else (none, it)

/-- The iterator state after `n` calls to `next()`. -/
def Ipv4AddrIterator.advance (it : Ipv4AddrIterator) : Nat → Ipv4AddrIterator
  | 0 => it
  | n + 1 => (it.next.2).advance n

/-- The value produced by the `(n+1)`-st call to `next()` (0-indexed). -/
def Ipv4AddrIterator.nthYield (it : Ipv4AddrIterator) (n : Nat) : Option Ipv4Addr :=
  ((it.advance n).next).1

/-- The state of an `Ipv6AddrIterator`: the current and end positions as
unsigned 128-bit integers (`bigint` values, always non-negative here). -/
structure Ipv6AddrIterator where
  currU128 : Nat
  endU128 : Nat
deriving DecidableEq, Repr

/-- The constructor `new Ipv6AddrIterator(start, end)`. -/
def Ipv6AddrIterator.ofAddrs (start stop : Ipv6Addr) : Ipv6AddrIterator :=
  ⟨start.toUint128, stop.toUint128⟩

/-- One `next()` call on an `Ipv6AddrIterator` (same shape as the IPv4
iterator). -/
def Ipv6AddrIterator.next (it : Ipv6AddrIterator) : Option Ipv6Addr × Ipv6AddrIterator :=
  if it.currU128 < it.endU128 then
    (Ipv6Addr.tryFromUint128 (it.currU128 : Int), ⟨it.currU128 + 1, it.endU128⟩)
  else (none, it)

/-- The iterator state after `n` calls to `next()`. -/
def Ipv6AddrIterator.advance (it : Ipv6AddrIterator) : Nat → Ipv6AddrIterator
  | 0 => it
  | n + 1 => (it.next.2).advance n

/-- The value produced by the `(n+1)`-st call to `next()` (0-indexed). -/
def Ipv6AddrIterator.nthYield (it : Ipv6AddrIterator) (n : Nat) : Option Ipv6Addr :=
  ((it.advance n).next).1

/-! ## Arithmetic bridges for the bitwise conversions -/

/-- Shifting left by `k` then or-ing in a value below `2 ^ k` is exact
positional arithmetic. -/
theorem shiftLeft_lor_eq_add {k : Nat} (x y : Nat) (hy : y < 2 ^ k) :
    x <<< k ||| y = x * 2 ^ k + y := by
  rw [Nat.shiftLeft_eq, Nat.mul_comm x (2 ^ k)]
  exact (Nat.mul_add_lt_is_or hy x).symm

theorem and255_eq_mod (m : Nat) : m &&& 255 = m % 256 := by
  have h := Nat.and_pow_two_sub_one_eq_mod m 8
  simpa using h

theorem and65535_eq_mod (m : Nat) : m &&& 65535 = m % 65536 := by
  have h := Nat.and_pow_two_sub_one_eq_mod m 16
  simpa using h

/-- `toUint32` of a valid address is its value in base 256. -/
theorem Ipv4Addr.toUint32_eq (v : Ipv4Addr) (h : v.Valid) :
    v.toUint32 = v.a * 16777216 + v.b * 65536 + v.c * 256 + v.d := by
  obtain ⟨a, b, c, d⟩ := v
  replace h : a ≤ 255 ∧ b ≤ 255 ∧ c ≤ 255 ∧ d ≤ 255 := h
  obtain ⟨ha, hb, hc, hd⟩ := h
  show uint8ArrayToUint32 a b c d = a * 16777216 + b * 65536 + c * 256 + d
  unfold uint8ArrayToUint32
  have hb24 : b <<< 16 < 2 ^ 24 := by
    rw [Nat.shiftLeft_eq]; norm_num; omega
  have hc16 : c <<< 8 < 2 ^ 16 := by
    rw [Nat.shiftLeft_eq]; norm_num; omega
  have hd8 : d < 2 ^ 8 := by norm_num; omega
  rw [shiftLeft_lor_eq_add a _ hb24, Nat.shiftLeft_eq b 16]
  rw [show a * 2 ^ 24 + b * 2 ^ 16 = (a * 256 + b) <<< 16 by
    rw [Nat.shiftLeft_eq]; ring]
  rw [shiftLeft_lor_eq_add _ _ hc16, Nat.shiftLeft_eq c 8]
  rw [show (a * 256 + b) * 2 ^ 16 + c * 2 ^ 8 = (a * 65536 + b * 256 + c) <<< 8 by
    rw [Nat.shiftLeft_eq]; ring]
  rw [shiftLeft_lor_eq_add _ _ hd8]
  ring

/-- `tryFromUint32` inverts `toUint32` on valid addresses. -/
theorem Ipv4Addr.tryFromUint32_toUint32 (v : Ipv4Addr) (h : v.Valid) :
    Ipv4Addr.tryFromUint32 (v.toUint32 : Int) = some v := by
  have hsum := v.toUint32_eq h
  obtain ⟨a, b, c, d⟩ := v
  replace h : a ≤ 255 ∧ b ≤ 255 ∧ c ≤ 255 ∧ d ≤ 255 := h
  obtain ⟨ha, hb, hc, hd⟩ := h
  simp only at hsum
  rw [hsum]
  unfold Ipv4Addr.tryFromUint32
  rw [if_pos ⟨Int.natCast_nonneg _, by
    exact_mod_cast (by omega : a * 16777216 + b * 65536 + c * 256 + d ≤ 4294967295)⟩]
  simp only [Int.toNat_natCast, Option.some.injEq, Ipv4Addr.mk.injEq]
  rw [Nat.shiftRight_eq_div_pow, Nat.shiftRight_eq_div_pow, Nat.shiftRight_eq_div_pow,
      and255_eq_mod, and255_eq_mod, and255_eq_mod, and255_eq_mod]
  omega

/-- Any unsigned 32-bit integer is accepted by `tryFromUint32`, and the
resulting address has that integer value and is valid. -/
theorem Ipv4Addr.tryFromUint32_of_le (n : Nat) (hn : n ≤ 4294967295) :
    ∃ w : Ipv4Addr, Ipv4Addr.tryFromUint32 (n : Int) = some w ∧
      w.Valid ∧ w.toUint32 = n := by
  have hval : Ipv4Addr.Valid ⟨n >>> 24 &&& 255, n >>> 16 &&& 255, n >>> 8 &&& 255, n &&& 255⟩ := by
    show n >>> 24 &&& 255 ≤ 255 ∧ n >>> 16 &&& 255 ≤ 255 ∧ n >>> 8 &&& 255 ≤ 255 ∧ n &&& 255 ≤ 255
    simp only [and255_eq_mod]
    omega
  refine ⟨⟨n >>> 24 &&& 255, n >>> 16 &&& 255, n >>> 8 &&& 255, n &&& 255⟩, ?_, hval, ?_⟩
  · unfold Ipv4Addr.tryFromUint32
    rw [if_pos ⟨Int.natCast_nonneg _, by exact_mod_cast hn⟩]
    simp
  · rw [Ipv4Addr.toUint32_eq _ hval]
    simp only
    rw [Nat.shiftRight_eq_div_pow, Nat.shiftRight_eq_div_pow, Nat.shiftRight_eq_div_pow,
        and255_eq_mod, and255_eq_mod, and255_eq_mod, and255_eq_mod]
    omega

/-- One step of the `uint16ArrayToUint128` fold in positional form. -/
theorem lor16_eq_add (x y : Nat) (hy : y ≤ 65535) :
    x <<< 16 ||| y = x * 65536 + y := by
  have h : y < 2 ^ 16 := by norm_num; omega
  have := shiftLeft_lor_eq_add x y h
  norm_num at this
  exact this

/-- `toUint128` of a valid address is its value in base 65536. -/
theorem Ipv6Addr.toUint128_eq (v : Ipv6Addr) (h : v.Valid) :
    v.toUint128 = v.a * 2 ^ 112 + v.b * 2 ^ 96 + v.c * 2 ^ 80 + v.d * 2 ^ 64 +
      v.e * 2 ^ 48 + v.f * 2 ^ 32 + v.g * 2 ^ 16 + v.h := by
  obtain ⟨a, b, c, d, e, f, g, h'⟩ := v
  replace h : a ≤ 65535 ∧ b ≤ 65535 ∧ c ≤ 65535 ∧ d ≤ 65535 ∧
      e ≤ 65535 ∧ f ≤ 65535 ∧ g ≤ 65535 ∧ h' ≤ 65535 := h
  obtain ⟨ha, hb, hc, hd, he, hf, hg, hh⟩ := h
  show uint16ArrayToUint128 [a, b, c, d, e, f, g, h'] = _
  unfold uint16ArrayToUint128
  simp only [List.foldl]
  rw [lor16_eq_add 0 a ha, lor16_eq_add _ b hb, lor16_eq_add _ c hc,
      lor16_eq_add _ d hd, lor16_eq_add _ e he, lor16_eq_add _ f hf,
      lor16_eq_add _ g hg, lor16_eq_add _ h' hh]
  ring

/-- Any unsigned 128-bit integer is accepted by `tryFromUint128`, and the
resulting address has that integer value and is valid. -/
theorem Ipv6Addr.tryFromUint128_of_le (n : Nat) (hn : n ≤ 2 ^ 128 - 1) :
    ∃ w : Ipv6Addr, Ipv6Addr.tryFromUint128 (n : Int) = some w ∧
      w.Valid ∧ w.toUint128 = n := by
  have hval : Ipv6Addr.Valid
      ⟨n >>> 112 &&& 65535, n >>> 96 &&& 65535, n >>> 80 &&& 65535, n >>> 64 &&& 65535,
       n >>> 48 &&& 65535, n >>> 32 &&& 65535, n >>> 16 &&& 65535, n &&& 65535⟩ := by
    show n >>> 112 &&& 65535 ≤ 65535 ∧ n >>> 96 &&& 65535 ≤ 65535 ∧
      n >>> 80 &&& 65535 ≤ 65535 ∧ n >>> 64 &&& 65535 ≤ 65535 ∧
      n >>> 48 &&& 65535 ≤ 65535 ∧ n >>> 32 &&& 65535 ≤ 65535 ∧
      n >>> 16 &&& 65535 ≤ 65535 ∧ n &&& 65535 ≤ 65535
    simp only [and65535_eq_mod]
    omega
  refine ⟨_, ?_, hval, ?_⟩
  · unfold Ipv6Addr.tryFromUint128
    rw [if_pos ⟨Int.natCast_nonneg _, by push_cast; omega⟩]
    simp
  · rw [Ipv6Addr.toUint128_eq _ hval]
    simp only
    rw [Nat.shiftRight_eq_div_pow, Nat.shiftRight_eq_div_pow, Nat.shiftRight_eq_div_pow,
        Nat.shiftRight_eq_div_pow, Nat.shiftRight_eq_div_pow, Nat.shiftRight_eq_div_pow,
        Nat.shiftRight_eq_div_pow]
    simp only [and65535_eq_mod]
    omega

/-! ## Claim theorems -/

/-- C1: for every IPv4 address, `isGlobal()` returns true iff none of:
first octet 0, `isPrivate()`, `isShared()`, `isLoopback()`,
`isLinkLocal()`, the `192.0.0.0/24` block with last octet neither 9 nor
10, `isDocumentation()`, `isBenchmarking()`, `isReserved()`,
`isBroadcast()`.  In particular, inside `192.0.0.0/24` exactly the last
octets 9 and 10 are global. -/
theorem ipv4_isGlobal_spec :
    (∀ v : Ipv4Addr,
      v.isGlobal = true ↔
        ¬(v.a = 0 ∨ v.isPrivate = true ∨ v.isShared = true ∨ v.isLoopback = true ∨
          v.isLinkLocal = true ∨
          (v.a = 192 ∧ v.b = 0 ∧ v.c = 0 ∧ v.d ≠ 9 ∧ v.d ≠ 10) ∨
          v.isDocumentation = true ∨ v.isBenchmarking = true ∨ v.isReserved = true ∨
          v.isBroadcast = true)) ∧
    (∀ d : Nat, (Ipv4Addr.mk 192 0 0 d).isGlobal = true ↔ (d = 9 ∨ d = 10)) := by
  constructor
  · intro v
    have hX : (v.a == 0 ||
        v.isPrivate || v.isShared || v.isLoopback || v.isLinkLocal ||
        (v.a == 192 && v.b == 0 && v.c == 0 && v.d != 9 && v.d != 10) ||
        v.isDocumentation || v.isBenchmarking || v.isReserved || v.isBroadcast) = true ↔
        (v.a = 0 ∨ v.isPrivate = true ∨ v.isShared = true ∨ v.isLoopback = true ∨
          v.isLinkLocal = true ∨
          (v.a = 192 ∧ v.b = 0 ∧ v.c = 0 ∧ v.d ≠ 9 ∧ v.d ≠ 10) ∨
          v.isDocumentation = true ∨ v.isBenchmarking = true ∨ v.isReserved = true ∨
          v.isBroadcast = true) := by
      simp only [Bool.or_eq_true, Bool.and_eq_true, beq_iff_eq, bne_iff_ne, ne_eq]
      tauto
    unfold Ipv4Addr.isGlobal
    rw [Bool.not_eq_true', ← Bool.not_eq_true, hX]
  · intro d
    unfold Ipv4Addr.isGlobal Ipv4Addr.isPrivate Ipv4Addr.isShared Ipv4Addr.isLoopback
      Ipv4Addr.isLinkLocal Ipv4Addr.isDocumentation Ipv4Addr.isBenchmarking Ipv4Addr.isReserved
      Ipv4Addr.isBroadcast Ipv4Addr.equals Ipv4Addr.octets arrayStartsWith Ipv4Addr.BROADCAST
    simp only [Bool.or_eq_true, Bool.and_eq_true, beq_iff_eq, bne_iff_ne, ne_eq,
      Bool.not_eq_true', Bool.or_eq_false_iff, Bool.and_eq_false_iff]
    norm_num
    simp [arrayStartsWith]
    exact fun _ => by decide

/-- C5 (failing input): the `src/ipv4.ts` snapshot of `next()` tests the
incremented value against 65535, so at `0.0.255.255` it returns `null`
even though its own documentation promises `null` only at
`255.255.255.255`; the current `src/v4/ipv4.ts` implementation carries
into `0.1.0.0` as the claim states.  Boundary behaviour of the current
`previous`/`next` on the same evaluation points. -/
theorem ipv4_next_legacy_bug :
    Ipv4Addr.nextLegacy ⟨0, 0, 255, 255⟩ = none ∧
    Ipv4Addr.next ⟨0, 0, 255, 255⟩ = some ⟨0, 1, 0, 0⟩ ∧
    Ipv4Addr.next ⟨0, 0, 0, 255⟩ = some ⟨0, 0, 1, 0⟩ ∧
    Ipv4Addr.next ⟨255, 255, 255, 255⟩ = none ∧
    Ipv4Addr.previous ⟨0, 0, 0, 0⟩ = none ∧
    Ipv4Addr.previous ⟨0, 0, 1, 0⟩ = some ⟨0, 0, 0, 255⟩ ∧
    Ipv4Addr.previousLegacy ⟨0, 0, 0, 0⟩ = none := by
  decide

/-- C4 (failing input): `toIpv4()` destructures `uint16ToUint8Array`
(which returns `[lowByte, highByte]`) as if it were
`[highByte, lowByte]`, so on `::ffff:192.0.2.1` (segments 6 and 7 being
`0xc000` and `0x0201`) it produces `0.192.1.2` instead of the claimed
`192.0.2.1`; `toIpv4Mapped()` on the very same address does produce
`192.0.2.1`. -/
theorem ipv6_toIpv4_byte_order_bug :
    Ipv6Addr.toIpv4 ⟨0, 0, 0, 0, 0, 0xffff, 0xc000, 0x0201⟩ = some ⟨0, 192, 1, 2⟩ ∧
    Ipv6Addr.toIpv4 ⟨0, 0, 0, 0, 0, 0xffff, 0xc000, 0x0201⟩ ≠ some ⟨192, 0, 2, 1⟩ ∧
    Ipv6Addr.toIpv4Mapped ⟨0, 0, 0, 0, 0, 0xffff, 0xc000, 0x0201⟩ = some ⟨192, 0, 2, 1⟩ := by
  decide

/-- C9: `SocketAddrV6.parse` throws an explicit not-implemented `Error`
on every input; it never produces the `null`-or-value normal return used
for ordinary parse results, so "unsupported" is distinguishable from
"malformed input". -/
theorem socketAddrV6_parse_unimplemented (s : List Char) :
    SocketAddrV6.parse s = .error ("Not implemented yet") ∧
    (SocketAddrV6.parse s).isOk = false := by
  exact ⟨rfl, rfl⟩

/-- `(!b) = true` is the negation of `b = true`. -/
theorem bool_not_eq_true (b : Bool) : ((!b) = true) = ¬(b = true) := by
  cases b <;> simp

set_option maxHeartbeats 1000000 in
/-- C2: for every IPv6 address, `isGlobal()` returns true iff the address
is none of: unspecified, loopback, IPv4-mapped, IPv4-translated,
discard-only, in the `segment0 = 0x2001 ∧ segment1 < 0x200` sub-range
(except the carve-outs `2001:1::1`, `2001:1::2`, prefix `2001:3::`,
prefix `2001:4:112::`, or `segment1 ∈ [0x10, 0x3f]`, which stay global),
`segment0 = 0x2002`, documentation, unique-local, unicast link-local. -/
theorem ipv6_isGlobal_spec (v : Ipv6Addr) (hv : v.Valid) :
    v.isGlobal = true ↔
      ¬(v.isUnspecified = true ∨ v.isLoopback = true ∨ v.isIpv4Mapped = true ∨
        v.isIpv4Translated = true ∨ v.isDiscardOnly = true ∨
        (v.a = 0x2001 ∧ v.b < 0x200 ∧
          ¬(v = ⟨0x2001, 1, 0, 0, 0, 0, 0, 1⟩ ∨ v = ⟨0x2001, 1, 0, 0, 0, 0, 0, 2⟩ ∨
            (v.a = 0x2001 ∧ v.b = 3) ∨ (v.a = 0x2001 ∧ v.b = 4 ∧ v.c = 0x112) ∨
            (0x10 ≤ v.b ∧ v.b ≤ 0x3f))) ∨
        v.a = 0x2002 ∨ v.isDocumentation = true ∨ v.isUniqueLocal = true ∨
        v.isUnicastLinkLocal = true) := by
  have hsum := v.toUint128_eq hv
  obtain ⟨a, b, c, d, e, f, g, h⟩ := v
  replace hv : a ≤ 65535 ∧ b ≤ 65535 ∧ c ≤ 65535 ∧ d ≤ 65535 ∧
      e ≤ 65535 ∧ f ≤ 65535 ∧ g ≤ 65535 ∧ h ≤ 65535 := hv
  obtain ⟨ha, hb, hc, hd, he, hf, hg, hh⟩ := hv
  simp only at hsum
  have e1 : ((Ipv6Addr.mk a b c d e f g h).toUint128 == 0x20010001000000000000000000000001) = true ↔
      (Ipv6Addr.mk a b c d e f g h = ⟨0x2001, 1, 0, 0, 0, 0, 0, 1⟩) := by
    rw [beq_iff_eq, hsum, Ipv6Addr.mk.injEq]
    constructor <;> (intro hq; omega)
  have e2 : ((Ipv6Addr.mk a b c d e f g h).toUint128 == 0x20010001000000000000000000000002) = true ↔
      (Ipv6Addr.mk a b c d e f g h = ⟨0x2001, 1, 0, 0, 0, 0, 0, 2⟩) := by
    rw [beq_iff_eq, hsum, Ipv6Addr.mk.injEq]
    constructor <;> (intro hq; omega)
  unfold Ipv6Addr.isGlobal
  rw [bool_not_eq_true]
  apply not_congr
  simp only [Bool.or_eq_true, Bool.and_eq_true, bool_not_eq_true, e1, e2,
    beq_iff_eq, decide_eq_true_eq, Ipv6Addr.segments, arrayStartsWith,
    Bool.and_true, and_true, true_and]
  clear hsum e1 e2
  tauto

/-- Witness for C2: `2001:1::1` (one of the carve-outs) is global. -/
theorem ipv6_isGlobal_spec_witness :
    Ipv6Addr.isGlobal ⟨0x2001, 1, 0, 0, 0, 0, 0, 1⟩ = true :=
  (ipv6_isGlobal_spec ⟨0x2001, 1, 0, 0, 0, 0, 0, 1⟩ (by decide)).mpr (by decide)

/-- While in range, `k` calls to `next()` move the cursor forward by `k`. -/
theorem Ipv4AddrIterator.advance_in_range (b : Nat) :
    ∀ (k a : Nat), a + k ≤ b →
      Ipv4AddrIterator.advance ⟨a, b⟩ k = ⟨a + k, b⟩ := by
  intro k
  induction k with
  | zero => intro a _; simp [Ipv4AddrIterator.advance]
  | succ n ih =>
    intro a hk
    show Ipv4AddrIterator.advance (Ipv4AddrIterator.next ⟨a, b⟩).2 n = _
    unfold Ipv4AddrIterator.next
    rw [if_pos (show a < b by omega)]
    simp only
    rw [ih (a + 1) (by omega)]
    congr 1
    omega

/-- An exhausted iterator never changes state again. -/
theorem Ipv4AddrIterator.advance_exhausted (b k : Nat) :
    Ipv4AddrIterator.advance ⟨b, b⟩ k = ⟨b, b⟩ := by
  induction k with
  | zero => simp [Ipv4AddrIterator.advance]
  | succ n ih =>
    show Ipv4AddrIterator.advance (Ipv4AddrIterator.next ⟨b, b⟩).2 n = _
    unfold Ipv4AddrIterator.next
    rw [if_neg (show ¬ b < b by omega)]
    exact ih

/-- Advancing distributes over addition of step counts. -/
theorem Ipv4AddrIterator.advance_add (it : Ipv4AddrIterator) (m n : Nat) :
    it.advance (m + n) = (it.advance m).advance n := by
  induction m generalizing it with
  | zero => simp [Ipv4AddrIterator.advance]
  | succ k ih =>
    show Ipv4AddrIterator.advance it (k + 1 + n) = _
    rw [show k + 1 + n = (k + n) + 1 by omega]
    show Ipv4AddrIterator.advance (it.next.2) (k + n) = _
    rw [ih it.next.2]
    rfl

/-- The `i`-th `next()` call of an in-range IPv4 iterator yields the
address at `a + i` while `i < b - a` and is permanently done after. -/
theorem Ipv4AddrIterator.nthYield_spec (a b : Nat) (hb : b ≤ 4294967295) (hab : a ≤ b) (i : Nat) :
    (i < b - a → ∃ w : Ipv4Addr, (Ipv4AddrIterator.mk a b).nthYield i = some w ∧
        w.Valid ∧ w.toUint32 = a + i) ∧
    (b - a ≤ i → (Ipv4AddrIterator.mk a b).nthYield i = none) := by
  constructor
  · intro hi
    unfold Ipv4AddrIterator.nthYield
    rw [Ipv4AddrIterator.advance_in_range b i a (by omega)]
    unfold Ipv4AddrIterator.next
    rw [if_pos (show a + i < b by omega)]
    exact Ipv4Addr.tryFromUint32_of_le (a + i) (by omega)
  · intro hi
    unfold Ipv4AddrIterator.nthYield
    rw [show i = (b - a) + (i - (b - a)) by omega, Ipv4AddrIterator.advance_add,
        Ipv4AddrIterator.advance_in_range b (b - a) a (by omega),
        show a + (b - a) = b by omega,
        Ipv4AddrIterator.advance_exhausted]
    unfold Ipv4AddrIterator.next
    rw [if_neg (show ¬ b < b by omega)]

set_option maxRecDepth 10000 in
/-- `tryFromUint128` inverts `toUint128` on valid addresses. -/
theorem Ipv6Addr.tryFromUint128_toUint128 (v : Ipv6Addr) (h : v.Valid) :
    Ipv6Addr.tryFromUint128 (v.toUint128 : Int) = some v := by
  have hsum := v.toUint128_eq h
  obtain ⟨a, b, c, d, e, f, g, h'⟩ := v
  replace h : a ≤ 65535 ∧ b ≤ 65535 ∧ c ≤ 65535 ∧ d ≤ 65535 ∧
      e ≤ 65535 ∧ f ≤ 65535 ∧ g ≤ 65535 ∧ h' ≤ 65535 := h
  obtain ⟨ha, hb, hc, hd, he, hf, hg, hh⟩ := h
  simp only at hsum
  rw [hsum]
  unfold Ipv6Addr.tryFromUint128
  rw [if_pos ⟨Int.natCast_nonneg _, by push_cast; omega⟩]
  simp only [Int.toNat_natCast, Option.some.injEq, Ipv6Addr.mk.injEq]
  rw [Nat.shiftRight_eq_div_pow, Nat.shiftRight_eq_div_pow, Nat.shiftRight_eq_div_pow,
      Nat.shiftRight_eq_div_pow, Nat.shiftRight_eq_div_pow, Nat.shiftRight_eq_div_pow,
      Nat.shiftRight_eq_div_pow]
  simp only [and65535_eq_mod]
  omega

/-- While in range, `k` calls to `next()` move the cursor forward by `k`. -/
theorem Ipv6AddrIterator.advance_in_range128 (b : Nat) :
    ∀ (k a : Nat), a + k ≤ b →
      Ipv6AddrIterator.advance ⟨a, b⟩ k = ⟨a + k, b⟩ := by
  intro k
  induction k with
  | zero => intro a _; simp [Ipv6AddrIterator.advance]
  | succ n ih =>
    intro a hk
    show Ipv6AddrIterator.advance (Ipv6AddrIterator.next ⟨a, b⟩).2 n = _
    unfold Ipv6AddrIterator.next
    rw [if_pos (show a < b by omega)]
    simp only
    rw [ih (a + 1) (by omega)]
    congr 1
    omega

/-- An exhausted iterator never changes state again. -/
theorem Ipv6AddrIterator.advance_exhausted128 (b k : Nat) :
    Ipv6AddrIterator.advance ⟨b, b⟩ k = ⟨b, b⟩ := by
  induction k with
  | zero => simp [Ipv6AddrIterator.advance]
  | succ n ih =>
    show Ipv6AddrIterator.advance (Ipv6AddrIterator.next ⟨b, b⟩).2 n = _
    unfold Ipv6AddrIterator.next
    rw [if_neg (show ¬ b < b by omega)]
    exact ih

/-- Advancing distributes over addition of step counts. -/
theorem Ipv6AddrIterator.advance_add128 (it : Ipv6AddrIterator) (m n : Nat) :
    it.advance (m + n) = (it.advance m).advance n := by
  induction m generalizing it with
  | zero => simp [Ipv6AddrIterator.advance]
  | succ k ih =>
    show Ipv6AddrIterator.advance it (k + 1 + n) = _
    rw [show k + 1 + n = (k + n) + 1 by omega]
    show Ipv6AddrIterator.advance (it.next.2) (k + n) = _
    rw [ih it.next.2]
    rfl

set_option maxRecDepth 10000 in
/-- The `i`-th `next()` call of an in-range IPv6 iterator yields the
address at `a + i` while `i < b - a` and is permanently done after. -/
theorem Ipv6AddrIterator.nthYield_spec128 (a b : Nat) (hb : b ≤ 2 ^ 128 - 1) (hab : a ≤ b) (i : Nat) :
    (i < b - a → ∃ w : Ipv6Addr, (Ipv6AddrIterator.mk a b).nthYield i = some w ∧
        w.Valid ∧ w.toUint128 = a + i) ∧
    (b - a ≤ i → (Ipv6AddrIterator.mk a b).nthYield i = none) := by
  constructor
  · intro hi
    unfold Ipv6AddrIterator.nthYield
    rw [Ipv6AddrIterator.advance_in_range128 b i a (by omega)]
    unfold Ipv6AddrIterator.next
    rw [if_pos (show a + i < b by omega)]
    exact Ipv6Addr.tryFromUint128_of_le (a + i) (by omega)
  · intro hi
    unfold Ipv6AddrIterator.nthYield
    rw [show i = (b - a) + (i - (b - a)) by omega, Ipv6AddrIterator.advance_add128,
        Ipv6AddrIterator.advance_in_range128 b (b - a) a (by omega),
        show a + (b - a) = b by omega,
        Ipv6AddrIterator.advance_exhausted128]
    unfold Ipv6AddrIterator.next
    rw [if_neg (show ¬ b < b by omega)]

set_option maxRecDepth 10000 in
/-- C7: an `Ipv4AddrIterator` (resp. `Ipv6AddrIterator`) from `A` to `B`
with `A ≤ B` as integers yields exactly `B - A` addresses: the `i`-th
yield (0-indexed, for `i < B - A`) is the address with integer value
`A + i` — so the sequence starts at `A` (the first yield is `A` itself),
is strictly ascending, and stays strictly below `B` — and every call
from the `(B - A)`-th on reports done; for `A = B` nothing is yielded. -/
theorem addr_iterator_half_open
    (A B : Ipv4Addr) (hA : A.Valid) (hB : B.Valid) (hAB : A.toUint32 ≤ B.toUint32)
    (A6 B6 : Ipv6Addr) (hA6 : A6.Valid) (hB6 : B6.Valid) (hAB6 : A6.toUint128 ≤ B6.toUint128) :
    ((0 < B.toUint32 - A.toUint32 → (Ipv4AddrIterator.ofAddrs A B).nthYield 0 = some A) ∧
      ∀ i, (i < B.toUint32 - A.toUint32 →
          ∃ w : Ipv4Addr, (Ipv4AddrIterator.ofAddrs A B).nthYield i = some w ∧
            w.Valid ∧ w.toUint32 = A.toUint32 + i) ∧
        (B.toUint32 - A.toUint32 ≤ i → (Ipv4AddrIterator.ofAddrs A B).nthYield i = none)) ∧
    ((0 < B6.toUint128 - A6.toUint128 → (Ipv6AddrIterator.ofAddrs A6 B6).nthYield 0 = some A6) ∧
      ∀ i, (i < B6.toUint128 - A6.toUint128 →
          ∃ w : Ipv6Addr, (Ipv6AddrIterator.ofAddrs A6 B6).nthYield i = some w ∧
            w.Valid ∧ w.toUint128 = A6.toUint128 + i) ∧
        (B6.toUint128 - A6.toUint128 ≤ i → (Ipv6AddrIterator.ofAddrs A6 B6).nthYield i = none)) := by
  have hb4 : B.toUint32 ≤ 4294967295 := by
    have := B.toUint32_eq hB
    have hv := hB
    obtain ⟨hb1, hb2, hb3, hb4'⟩ := hv
    omega
  have hb6 : B6.toUint128 ≤ 2 ^ 128 - 1 := by
    have := B6.toUint128_eq hB6
    have hv := hB6
    obtain ⟨h1, h2, h3, h4, h5, h6, h7, h8⟩ := hv
    omega
  refine ⟨⟨?_, fun i => Ipv4AddrIterator.nthYield_spec _ _ hb4 hAB i⟩,
    ⟨?_, fun i => Ipv6AddrIterator.nthYield_spec128 _ _ hb6 hAB6 i⟩⟩
  · intro hpos
    unfold Ipv4AddrIterator.nthYield
    show ((Ipv4AddrIterator.mk A.toUint32 B.toUint32).advance 0).next.1 = some A
    rw [Ipv4AddrIterator.advance_in_range B.toUint32 0 A.toUint32 (by omega)]
    unfold Ipv4AddrIterator.next
    rw [if_pos (show A.toUint32 + 0 < B.toUint32 by omega)]
    show Ipv4Addr.tryFromUint32 ((A.toUint32 + 0 : Nat) : Int) = some A
    rw [show A.toUint32 + 0 = A.toUint32 by omega]
    exact A.tryFromUint32_toUint32 hA
  · intro hpos
    unfold Ipv6AddrIterator.nthYield
    show ((Ipv6AddrIterator.mk A6.toUint128 B6.toUint128).advance 0).next.1 = some A6
    rw [Ipv6AddrIterator.advance_in_range128 B6.toUint128 0 A6.toUint128 (by omega)]
    unfold Ipv6AddrIterator.next
    rw [if_pos (show A6.toUint128 + 0 < B6.toUint128 by omega)]
    show Ipv6Addr.tryFromUint128 ((A6.toUint128 + 0 : Nat) : Int) = some A6
    rw [show A6.toUint128 + 0 = A6.toUint128 by omega]
    exact A6.tryFromUint128_toUint128 hA6

set_option maxRecDepth 10000 in
/-- Witness for C7: the iterator from `0.0.0.250` to `0.0.1.0` yields an
address of value 253 at step 3 and is done at step 6, and likewise for
the IPv6 iterator from `::fffa` to `::1:0`. -/
theorem addr_iterator_half_open_witness :
    (∃ w : Ipv4Addr, (Ipv4AddrIterator.ofAddrs ⟨0, 0, 0, 250⟩ ⟨0, 0, 1, 0⟩).nthYield 3 = some w ∧
        w.Valid ∧ w.toUint32 = Ipv4Addr.toUint32 ⟨0, 0, 0, 250⟩ + 3) ∧
    (Ipv4AddrIterator.ofAddrs ⟨0, 0, 0, 250⟩ ⟨0, 0, 1, 0⟩).nthYield 6 = none ∧
    (∃ w : Ipv6Addr,
        (Ipv6AddrIterator.ofAddrs ⟨0, 0, 0, 0, 0, 0, 0, 65530⟩ ⟨0, 0, 0, 0, 0, 0, 1, 0⟩).nthYield 3 = some w ∧
        w.Valid ∧ w.toUint128 = Ipv6Addr.toUint128 ⟨0, 0, 0, 0, 0, 0, 0, 65530⟩ + 3) ∧
    (Ipv6AddrIterator.ofAddrs ⟨0, 0, 0, 0, 0, 0, 0, 65530⟩ ⟨0, 0, 0, 0, 0, 0, 1, 0⟩).nthYield 6 = none := by
  have h := addr_iterator_half_open ⟨0, 0, 0, 250⟩ ⟨0, 0, 1, 0⟩ (by decide) (by decide) (by decide)
      ⟨0, 0, 0, 0, 0, 0, 0, 65530⟩ ⟨0, 0, 0, 0, 0, 0, 1, 0⟩ (by decide) (by decide) (by decide)
  exact ⟨(h.1.2 3).1 (by decide), (h.1.2 6).2 (by decide),
    (h.2.2 3).1 (by decide), (h.2.2 6).2 (by decide)⟩

/-- Scanning digits over `ds ++ rest` takes exactly `ds` when `ds` is all
digits, fits in the bound, and `rest` does not begin with a digit. -/
theorem takeDigitsAux_append (ds rest : List Char) (k : Nat)
    (hd : ds.all isAsciiDigit = true) (hlen : ds.length ≤ k)
    (hrest : ∀ c, rest.head? = some c → isAsciiDigit c = false) :
    takeDigitsAux (ds ++ rest) k = ds := by
  induction ds generalizing k with
  | nil =>
    rw [List.nil_append]
    cases k with
    | zero => cases rest <;> rfl
    | succ k' =>
      cases rest with
      | nil => rfl
      | cons c t =>
        unfold takeDigitsAux
        rw [hrest c rfl]
        simp
  | cons c ds' ih =>
    simp only [List.all_cons, Bool.and_eq_true] at hd
    cases k with
    | zero => simp at hlen
    | succ k' =>
      show takeDigitsAux (c :: (ds' ++ rest)) (k' + 1) = c :: ds'
      unfold takeDigitsAux
      rw [hd.1]
      simp only [if_true]
      rw [ih k' hd.2 (by simpa using hlen)]

/-- `takeAsciiDigits` at a position whose suffix starts with a maximal
nonempty digit group returns that group and the index just past it. -/
theorem takeAsciiDigits_append (s : List Char) (idx : Nat) (ds rest : List Char) (atMost : Nat)
    (hdrop : s.drop idx = ds ++ rest)
    (hd : ds.all isAsciiDigit = true) (hne : ds ≠ []) (hlen : ds.length ≤ atMost)
    (hrest : ∀ c, rest.head? = some c → isAsciiDigit c = false) :
    takeAsciiDigits s idx 1 atMost = (ds, idx + ds.length) := by
  unfold takeAsciiDigits
  rw [hdrop, takeDigitsAux_append ds rest atMost hd hlen hrest]
  rw [if_neg (by
    have : 1 ≤ ds.length := by
      cases ds with
      | nil => exact absurd rfl hne
      | cons _ _ => simp
    omega)]

/-- Dropping past a known prefix of a suffix. -/
theorem drop_after (s : List Char) (idx : Nat) (ds rest : List Char)
    (hdrop : s.drop idx = ds ++ rest) :
    s.drop (idx + ds.length) = rest := by
  rw [← List.drop_drop, hdrop, List.drop_left]

/-- Dropping one more character past a known cons suffix. -/
theorem drop_cons (s : List Char) (i : Nat) (c : Char) (t : List Char)
    (h : s.drop i = c :: t) : s.drop (i + 1) = t := by
  rw [← List.drop_drop, h, List.drop_one, List.tail_cons]

/-- One octet step of the relaxed parser on a maximal 1-3 digit group
with value at most 255: it stores the group value and moves just past
the digits. -/
theorem ipv4OctetStep_spec (s : List Char) (idx : Nat) (ds rest : List Char)
    (hdrop : s.drop idx = ds ++ rest)
    (hd : ds.all isAsciiDigit = true) (hne : ds ≠ []) (hlen : ds.length ≤ 3)
    (hval : digitsToNat ds ≤ 255)
    (hrest : ∀ c, rest.head? = some c → isAsciiDigit c = false) :
    ipv4OctetStep s idx = some (digitsToNat ds, idx + ds.length) := by
  unfold ipv4OctetStep
  rw [takeAsciiDigits_append s idx ds rest 3 hdrop hd hne hlen hrest]
  simp only [parseIntDigits, List.isEmpty_eq_true]
  rw [if_neg hne]
  simp only
  rw [if_neg (by omega)]

/-- C8: the relaxed `parseIpv4Addr` consumes exactly a leading valid
dotted-decimal address and never fails because of trailing characters:
on `g0.g1.g2.g3` followed by anything that does not begin with a digit,
it returns the address of the four groups together with the index
immediately following the last digit consumed. -/
theorem parseIpv4Addr_valid_prefix (g0 g1 g2 g3 rest : List Char)
    (h0 : g0 ≠ [] ∧ g0.length ≤ 3 ∧ g0.all isAsciiDigit = true ∧ digitsToNat g0 ≤ 255)
    (h1 : g1 ≠ [] ∧ g1.length ≤ 3 ∧ g1.all isAsciiDigit = true ∧ digitsToNat g1 ≤ 255)
    (h2 : g2 ≠ [] ∧ g2.length ≤ 3 ∧ g2.all isAsciiDigit = true ∧ digitsToNat g2 ≤ 255)
    (h3 : g3 ≠ [] ∧ g3.length ≤ 3 ∧ g3.all isAsciiDigit = true ∧ digitsToNat g3 ≤ 255)
    (hrest : ∀ c, rest.head? = some c → isAsciiDigit c = false) :
    parseIpv4Addr (g0 ++ '.' :: (g1 ++ '.' :: (g2 ++ '.' :: (g3 ++ rest)))) =
      (some ⟨digitsToNat g0, digitsToNat g1, digitsToNat g2, digitsToNat g3⟩,
        g0.length + g1.length + g2.length + g3.length + 3) := by
  obtain ⟨h0ne, h0len, h0dig, h0val⟩ := h0
  obtain ⟨h1ne, h1len, h1dig, h1val⟩ := h1
  obtain ⟨h2ne, h2len, h2dig, h2val⟩ := h2
  obtain ⟨h3ne, h3len, h3dig, h3val⟩ := h3
  have hdot : ∀ (t : List Char) (c : Char), ('.' :: t).head? = some c → isAsciiDigit c = false := by
    intro t c hc
    simp only [List.head?_cons, Option.some.injEq] at hc
    subst hc
    decide
  set s := g0 ++ '.' :: (g1 ++ '.' :: (g2 ++ '.' :: (g3 ++ rest))) with hs
  have hdrop0 : s.drop 0 = g0 ++ ('.' :: (g1 ++ '.' :: (g2 ++ '.' :: (g3 ++ rest)))) := by
    rw [List.drop_zero]
  have step0 := ipv4OctetStep_spec s 0 g0 _ hdrop0 h0dig h0ne h0len h0val (hdot _)
  have d0 : s.drop (0 + g0.length) = '.' :: (g1 ++ '.' :: (g2 ++ '.' :: (g3 ++ rest))) :=
    drop_after s 0 g0 _ hdrop0
  have c0 : charAt s (0 + g0.length) = some '.' := by rw [charAt, d0]; rfl
  have hdrop1 : s.drop (0 + g0.length + 1) = g1 ++ ('.' :: (g2 ++ '.' :: (g3 ++ rest))) :=
    drop_cons s _ '.' _ d0
  have step1 := ipv4OctetStep_spec s (0 + g0.length + 1) g1 _ hdrop1 h1dig h1ne h1len h1val (hdot _)
  have d1 : s.drop (0 + g0.length + 1 + g1.length) = '.' :: (g2 ++ '.' :: (g3 ++ rest)) :=
    drop_after s _ g1 _ hdrop1
  have c1 : charAt s (0 + g0.length + 1 + g1.length) = some '.' := by rw [charAt, d1]; rfl
  have hdrop2 : s.drop (0 + g0.length + 1 + g1.length + 1) = g2 ++ ('.' :: (g3 ++ rest)) :=
    drop_cons s _ '.' _ d1
  have step2 := ipv4OctetStep_spec s (0 + g0.length + 1 + g1.length + 1) g2 _ hdrop2 h2dig h2ne h2len h2val (hdot _)
  have d2 : s.drop (0 + g0.length + 1 + g1.length + 1 + g2.length) = '.' :: (g3 ++ rest) :=
    drop_after s _ g2 _ hdrop2
  have c2 : charAt s (0 + g0.length + 1 + g1.length + 1 + g2.length) = some '.' := by
    rw [charAt, d2]; rfl
  have hdrop3 : s.drop (0 + g0.length + 1 + g1.length + 1 + g2.length + 1) = g3 ++ rest :=
    drop_cons s _ '.' _ d2
  have step3 := ipv4OctetStep_spec s (0 + g0.length + 1 + g1.length + 1 + g2.length + 1) g3 rest hdrop3 h3dig h3ne h3len h3val hrest
  unfold parseIpv4Addr
  simp only [step0, c0, step1, c1, step2, c2, step3, reduceIte]
  simp only [Prod.mk.injEq]
  exact ⟨trivial, by omega⟩

/-- Witness for C8: `parseIpv4Addr("127.0.0.1...")` returns the address
`127.0.0.1` and stop index 9. -/
theorem parseIpv4Addr_valid_prefix_witness :
    parseIpv4Addr ['1', '2', '7', '.', '0', '.', '0', '.', '1', '.', '.', '.'] =
      (some ⟨127, 0, 0, 1⟩, 9) := by
  have h := parseIpv4Addr_valid_prefix ['1', '2', '7'] ['0'] ['0'] ['1'] ['.', '.', '.']
    (by decide) (by decide) (by decide) (by decide)
    (by intro c hc; simp only [List.head?_cons, Option.some.injEq] at hc; subst hc; decide)
  exact h

set_option maxRecDepth 10000 in
/-- Decimal rendering of an octet is a nonempty all-digit group of at
most 3 characters whose value is the octet. -/
theorem natToDecimal_props : ∀ n, n < 256 →
    natToDecimal n ≠ [] ∧ (natToDecimal n).length ≤ 3 ∧
    (natToDecimal n).all isAsciiDigit = true ∧ digitsToNat (natToDecimal n) = n := by
  decide

/-- C6: for every IPv4 address (four octets in 0..255), the 32-bit
integer round-trip `tryFromUint32(toUint32(v))` and the string
round-trip `parse(toString(v))` both return the address itself. -/
theorem ipv4_roundtrip (v : Ipv4Addr) (h : v.Valid) :
    Ipv4Addr.tryFromUint32 (v.toUint32 : Int) = some v ∧
    Ipv4Addr.parse v.toString = some v := by
  refine ⟨v.tryFromUint32_toUint32 h, ?_⟩
  obtain ⟨a, b, c, d⟩ := v
  replace h : a ≤ 255 ∧ b ≤ 255 ∧ c ≤ 255 ∧ d ≤ 255 := h
  obtain ⟨ha, hb, hc, hd⟩ := h
  obtain ⟨pa1, pa2, pa3, pa4⟩ := natToDecimal_props a (by omega)
  obtain ⟨pb1, pb2, pb3, pb4⟩ := natToDecimal_props b (by omega)
  obtain ⟨pc1, pc2, pc3, pc4⟩ := natToDecimal_props c (by omega)
  obtain ⟨pd1, pd2, pd3, pd4⟩ := natToDecimal_props d (by omega)
  have hmaster := parseIpv4Addr_valid_prefix (natToDecimal a) (natToDecimal b) (natToDecimal c)
    (natToDecimal d) []
    ⟨pa1, pa2, pa3, by omega⟩ ⟨pb1, pb2, pb3, by omega⟩
    ⟨pc1, pc2, pc3, by omega⟩ ⟨pd1, pd2, pd3, by omega⟩
    (by intro c hc; simp at hc)
  rw [pa4, pb4, pc4, pd4] at hmaster
  have hts : Ipv4Addr.toString ⟨a, b, c, d⟩ =
      natToDecimal a ++ '.' :: (natToDecimal b ++ '.' :: (natToDecimal c ++ '.' :: (natToDecimal d ++ []))) := by
    unfold Ipv4Addr.toString
    rw [List.append_nil]
  rw [hts]
  unfold Ipv4Addr.parse
  rw [hmaster]
  have hstop : charAt
      (natToDecimal a ++ '.' :: (natToDecimal b ++ '.' :: (natToDecimal c ++ '.' :: (natToDecimal d ++ []))))
      ((natToDecimal a).length + (natToDecimal b).length + (natToDecimal c).length + (natToDecimal d).length + 3) = none := by
    rw [charAt, List.drop_eq_nil_of_le]
    · rfl
    · simp [List.length_append]
      omega
  simp only [hstop]
  simp

/-- C3 counterexample: on `"127.0.0.1x"` the relaxed parser succeeds
with stop index 9 while the string has length 10 (unconsumed trailing
input), yet the strict `Ipv4Addr.parse` returns the address, not the
no-value result; likewise `SocketAddrV4.parse("1.2.3.4:80x")` returns a
socket address although the relaxed stop index 10 is short of length 11. -/
theorem strict_parse_dot_only_counterexample :
    (parseIpv4Addr ['1', '2', '7', '.', '0', '.', '0', '.', '1', 'x']).1 = some ⟨127, 0, 0, 1⟩ ∧
    (parseIpv4Addr ['1', '2', '7', '.', '0', '.', '0', '.', '1', 'x']).2 = 9 ∧
    (['1', '2', '7', '.', '0', '.', '0', '.', '1', 'x'] : List Char).length = 10 ∧
    Ipv4Addr.parse ['1', '2', '7', '.', '0', '.', '0', '.', '1', 'x'] = some ⟨127, 0, 0, 1⟩ ∧
    SocketAddrV4.parse ['1', '.', '2', '.', '3', '.', '4', ':', '8', '0', 'x'] =
      some ⟨⟨1, 2, 3, 4⟩, ⟨80⟩⟩ ∧
    (parseSocketAddrV4 ['1', '.', '2', '.', '3', '.', '4', ':', '8', '0', 'x']).2 = 10 ∧
    (['1', '.', '2', '.', '3', '.', '4', ':', '8', '0', 'x'] : List Char).length = 11 := by
  decide

/-- C3 amended: the strict `Ipv4Addr.parse` rejects exactly when the
relaxed parse fails or the character at the relaxed stop index is a
dot, and `SocketAddrV4.parse` returns the relaxed result unchanged,
ignoring the stop index entirely. -/
theorem strict_parse_amended (s : List Char) :
    (Ipv4Addr.parse s = none ↔
      ((parseIpv4Addr s).1 = none ∨ charAt s (parseIpv4Addr s).2 = some '.')) ∧
    SocketAddrV4.parse s = (parseSocketAddrV4 s).1 := by
  refine ⟨?_, rfl⟩
  unfold Ipv4Addr.parse
  by_cases hdot : charAt s (parseIpv4Addr s).2 = some '.'
  · simp [hdot]
  · simp [hdot]

/-- An ASCII digit is not JavaScript whitespace. -/
theorem digit_not_ws (c : Char) (hc : isAsciiDigit c = true) : isJsWhitespace c = false := by
  simp only [isAsciiDigit, Bool.and_eq_true, decide_eq_true_eq] at hc
  simp only [isJsWhitespace, Bool.or_eq_false_iff, beq_eq_false_iff_ne, ne_eq,
    Bool.and_eq_false_iff, decide_eq_false_iff_not, not_le]
  omega

/-- On a string beginning with a digit, `Number.parseInt(s, 10)` is the
value of the longest leading digit run. -/
theorem jsParseInt10_digit_start (s : List Char) (hne : s.takeWhile isAsciiDigit ≠ []) :
    jsParseInt10 s = some ((digitsToNat (s.takeWhile isAsciiDigit) : Nat) : Int) := by
  cases s with
  | nil => simp at hne
  | cons c t =>
    rw [List.takeWhile_cons] at hne ⊢
    by_cases hc : isAsciiDigit c = true
    · rw [if_pos hc] at hne ⊢
      have hws := digit_not_ws c hc
      have hcm : c ≠ '-' := by
        intro h; rw [h] at hc; exact absurd hc (by decide)
      have hcp : c ≠ '+' := by
        intro h; rw [h] at hc; exact absurd hc (by decide)
      unfold jsParseInt10
      rw [List.dropWhile_cons, hws]
      simp only [Bool.false_eq_true, if_false, List.head?_cons]
      rw [if_neg (by simp [hcm]), if_neg (by simp [hcp])]
      unfold jsDigitsValue
      rw [List.takeWhile_cons, if_pos hc]
      simp
    · rw [if_neg hc] at hne
      exact absurd rfl hne

/-- C10: whenever the longest leading run of decimal digits of `s` is
nonempty and its value fits in 0..65535, `Port.parse(s)` returns a port
with that value, ignoring trailing characters; and `Port.parse` returns
the no-value result only when that leading run is empty (`parseInt`
gives `NaN`) or its value exceeds 65535. -/
theorem port_parse_leading_digits (s : List Char) :
    (s.takeWhile isAsciiDigit ≠ [] → digitsToNat (s.takeWhile isAsciiDigit) ≤ 65535 →
      Port.parse s = some ⟨digitsToNat (s.takeWhile isAsciiDigit)⟩) ∧
    (Port.parse s = none →
      s.takeWhile isAsciiDigit = [] ∨ 65535 < digitsToNat (s.takeWhile isAsciiDigit)) := by
  constructor
  · intro hne hle
    have hp : Port.parse s = Port.tryNew ((digitsToNat (s.takeWhile isAsciiDigit) : Nat) : Int) := by
      unfold Port.parse
      rw [jsParseInt10_digit_start s hne]
    rw [hp]
    unfold Port.tryNew
    rw [if_pos ⟨Int.natCast_nonneg _, by exact_mod_cast hle⟩]
    simp
  · intro hnone
    by_cases hne : s.takeWhile isAsciiDigit = []
    · exact Or.inl hne
    · right
      have hp : Port.parse s = Port.tryNew ((digitsToNat (s.takeWhile isAsciiDigit) : Nat) : Int) := by
        unfold Port.parse
        rw [jsParseInt10_digit_start s hne]
      rw [hp] at hnone
      unfold Port.tryNew at hnone
      by_cases hle : digitsToNat (s.takeWhile isAsciiDigit) ≤ 65535
      · rw [if_pos ⟨Int.natCast_nonneg _, by exact_mod_cast hle⟩] at hnone
        exact absurd hnone (by simp)
      · omega


/-- Witness for C6: round-tripping `127.0.0.1`. -/
theorem ipv4_roundtrip_witness :
    Ipv4Addr.tryFromUint32 ((Ipv4Addr.mk 127 0 0 1).toUint32 : Int) = some ⟨127, 0, 0, 1⟩ ∧
    Ipv4Addr.parse (Ipv4Addr.toString ⟨127, 0, 0, 1⟩) = some ⟨127, 0, 0, 1⟩ :=
  ipv4_roundtrip ⟨127, 0, 0, 1⟩ (by decide)

/-- Witness for C10: `Port.parse("80abc")` is the port 80. -/
theorem port_parse_leading_digits_witness :
    Port.parse ['8', '0', 'a', 'b', 'c'] = some ⟨80⟩ :=
  (port_parse_leading_digits ['8', '0', 'a', 'b', 'c']).1 (by decide) (by decide)
